import Mathlib

/-!
Verification development for the Pinpoint-DirectIP repository.

The development shallowly embeds the two core subsystems:

* the `mux` distributor (`src/mux/distributor.go`): routing table
  construction (`WithTargets`), message dispatch (`handle`), submission
  (`distribute` / `Handle`) and shutdown (`Close`);
* the `sbd` connection handler (`src/sbd/server.go`): the per-connection
  decode / handle / confirm sequence and the confirmation encoder
  (`createResult`).

External effects (regular-expression compilation, JSON serialization and
the network) are passed in as explicit oracles so that the control flow of
the Go functions is modelled exactly while the environment stays abstract.
Dispatch executions are modelled as traces recording which targets were
issued an HTTP request and which values were sent on the per-message
result channel.
-/

/-- Errors of the Go `error` interface that appear on the dispatch paths:
the failure of `json.Marshal`, of `http.NewRequest`, and of
`http.Client.Do`. Each carries its message string. -/
inductive GoError where
  | marshalErr (msg : String)
  | requestErr (msg : String)
  | transportErr (msg : String)
  deriving DecidableEq, Repr

/-- Modelled from the spec: the decoded message type `sbd.InformationBucket`
(defined in an `sbd` source file not present under `src/`). The spec states
that the device identifier obtained from it is the sole field the router
inspects, so the model keeps exactly that field. -/
structure InformationBucket where
  imei : String
  deriving DecidableEq, Repr

/-- Modelled from the spec: `GetIdentifier()` returns the device identifier
of the message (the Go code calls it as `m.data.Header.GetIMEI()`). -/
def InformationBucket.GetIMEI (b : InformationBucket) : String :=
  b.imei

/-- The public (YAML-visible) fields of `mux.Target`. -/
structure Target where
  ID : String
  IMEIPattern : String
  Backend : String
  SkipTLS : Bool
  HeaderKV : List (String × String)

/-- The `http.Client` built by `WithTargets`: the only configuration the Go
code applies is the TLS verification toggle on its transport. -/
structure HTTPClient where
  insecureSkipVerify : Bool
  deriving DecidableEq, Repr

/-- A `mux.Target` whose private fields have been filled in by
`WithTargets`: the compiled pattern (modelled by its `MatchString`
function) and the dedicated HTTP client. -/
structure CompiledTarget where
  toTarget : Target
  imeipattern : String → Bool
  client : HTTPClient

/-- Pattern test performed by `handle`: `t.imeipattern.MatchString(imei)`. -/
def CompiledTarget.matches (t : CompiledTarget) (imei : String) : Bool :=
  t.imeipattern imei

/-- The state of a `mux.distributer`: the routing table field `targets`,
and the open/closed state of its two channels. -/
structure Distributer where
  targets : List CompiledTarget
  sbdChannelClosed : Bool
  configChannelClosed : Bool

/-- The state produced by `mux.New`: empty routing table, both channels
freshly made (open). -/
def New : Distributer :=
  { targets := [], sbdChannelClosed := false, configChannelClosed := false }

/-- The error returned by `WithTargets` on the first pattern that does not
compile: `fmt.Errorf` formats the offending pattern and the cause into the
message, so the model keeps both. -/
structure ConfigError where
  pattern : String
  cause : String
  deriving DecidableEq, Repr

/-- The per-target outcome of issuing the HTTP request of one dispatch:
`http.NewRequest` may fail before any request reaches the wire,
`client.Do` may fail at transport level, or a response with some status
code comes back. -/
inductive CallResult where
  | newRequestErr (e : GoError)
  | transportErr (e : GoError)
  | ok (statusCode : Nat)
  deriving DecidableEq, Repr

/-- A network oracle: the outcome of the HTTP call that the dispatch of one
message would perform against the target at a given routing-table index. -/
def Net : Type := Nat → CallResult

/-- The observable trace of one execution of `distributer.handle`:
`requests` lists, in order, the routing-table indices of the targets to
which an HTTP request was issued (`client.Do` reached); `sends` lists, in
order, the values sent on the per-message channel `m.returnedError`
(`none` models a nil error). -/
structure HandleTrace where
  requests : List Nat
  sends : List (Option GoError)
  deriving DecidableEq, Repr

/-- The target loop of `distributer.handle`, iterating the routing table
from index `i`. For a matching target: a `http.NewRequest` failure sends
that error and returns; a `client.Do` failure sends that error and
returns; a 2xx response continues with the next target; a non-2xx
response sends the current value of `err` — which at that point is the
nil result of the successful `client.Do` call — and returns. Falling off
the loop sends nil. -/
def handleLoop (imei : String) (net : Net) : List CompiledTarget → Nat → HandleTrace
  | [], _ => { requests := [], sends := [none] }
  | t :: ts, i =>
    if t.matches imei then
      match net i with
      | .newRequestErr e => { requests := [], sends := [some e] }
      | .transportErr e => { requests := [i], sends := [some e] }
      | .ok status =>
        if status / 100 == 2 then
          let rest := handleLoop imei net ts (i + 1)
          { requests := i :: rest.requests, sends := rest.sends }
        else
          { requests := [i], sends := [none] }
    else
      handleLoop imei net ts (i + 1)

/-- The body of `distributer.handle`: `json.Marshal` of the message data is
passed in as `js`; on a marshal error that error is sent and the routing
table is never consulted, otherwise the target loop runs over the current
`targets` field from index 0. -/
def handle (f : Distributer) (js : Except GoError String) (m : InformationBucket)
    (net : Net) : HandleTrace :=
  match js with
  | .error e => { requests := [], sends := [some e] }
  | .ok _ => handleLoop m.GetIMEI net f.targets 0

/-- The loop of `WithTargets`: compile every candidate pattern in order; on
the first failure return a `ConfigError` carrying the offending pattern and
the cause; on success produce the list of compiled targets, each paired
with a fresh client built from its TLS toggle. The regular-expression
compiler `compile` is an oracle for `regexp.Compile`. -/
def WithTargets (compile : String → Except String (String → Bool)) :
    List Target → Except ConfigError (List CompiledTarget)
  | [] => .ok []
  | t :: ts =>
    match compile t.IMEIPattern with
    | .error e => .error { pattern := t.IMEIPattern, cause := e }
    | .ok p =>
      match WithTargets compile ts with
      | .error e => .error e
      | .ok rest =>
        .ok ({ toTarget := t, imeipattern := p,
               client := { insecureSkipVerify := t.SkipTLS } } :: rest)

/-- The effect of a `WithTargets` call on the distributer state: on a
compile error the call returns before sending on `configChannel`, so the
routing table is untouched; on success the whole new list is sent and a
listener task installs it as the new `targets` field. -/
def WithTargetsState (compile : String → Except String (String → Bool))
    (f : Distributer) (cands : List Target) : Distributer × Option ConfigError :=
  match WithTargets compile cands with
  | .error e => (f, some e)
  | .ok ar => ({ f with targets := ar }, none)

/-- Outcome of a send statement on a Go channel, per the Go language
specification: a send on a closed channel panics; a send on an open
unbuffered channel blocks until a receiver is ready. -/
inductive ChannelSendResult where
  | panicked
  | blocksForReceiver
  deriving DecidableEq, Repr

/-- Go channel send semantics for an unbuffered channel. -/
def channelSend (closed : Bool) : ChannelSendResult :=
  if closed then .panicked else .blocksForReceiver

/-- The state change of `distributer.Close`: both `configChannel` and
`sbdChannel` are closed. -/
def Close (f : Distributer) : Distributer :=
  { f with configChannelClosed := true, sbdChannelClosed := true }

/-- The first statement of `distributer.distribute` (the body of `Handle`):
the message is sent on `sbdChannel`. Its outcome under Go channel
semantics decides whether the call panics or proceeds to await the
result. -/
def distributeSubmit (f : Distributer) : ChannelSendResult :=
  channelSend f.sbdChannelClosed

/-- The routing-table indices, in order, of the targets whose pattern
matches the identifier, starting the count at `i`. -/
def matchingIdx (imei : String) : List CompiledTarget → Nat → List Nat
  | [], _ => []
  | t :: ts, i =>
    if t.matches imei then i :: matchingIdx imei ts (i + 1)
    else matchingIdx imei ts (i + 1)

/-- A call outcome counts as a dispatch failure when it is a
transport-level error or a response outside the 2xx class. -/
def failsDispatch : CallResult → Bool
  | .newRequestErr _ => false
  | .transportErr _ => true
  | .ok status => !(status / 100 == 2)

/-- A call outcome counts as a success when a response in the 2xx class
came back. -/
def succeeds2xx : CallResult → Bool
  | .ok status => status / 100 == 2
  | _ => false

/-- Modelled from the spec: the protocol revision constant of the `sbd`
package (declared in an sbd source file not under `src/`); the spec treats
the revision byte as informational and no claim depends on its value. -/
def protocolRevision : Nat := 1

/-- Modelled from the spec: the element identifier of the Confirmation
element (declared in an sbd source file not under `src/`); no claim
depends on its value. -/
def moConfirmationID : Nat := 5

/-- The fixed message header of the wire format: revision byte and the
declared length of the information-element region. -/
structure MessageHeader where
  ProtocolRevision : Nat
  MessageLength : Nat
  deriving DecidableEq, Repr

/-- The per-element header of the wire format: element identifier and the
declared length of the element payload. -/
structure Header where
  ID : Nat
  ElementLength : Nat
  deriving DecidableEq, Repr

/-- The confirmation element payload: a single status byte. -/
structure MOConfirmationMessage where
  Status : Nat
  deriving DecidableEq, Repr

/-- The reply record written back to the device (Go type `result` in
`src/sbd/server.go`, which embeds the three records). -/
structure result where
  messageHeader : MessageHeader
  elementHeader : Header
  confirmation : MOConfirmationMessage
  deriving DecidableEq, Repr

/-- Direct translation of `createResult` in `src/sbd/server.go`: header
with the protocol revision and declared message length 4, one confirmation
element header with declared element length 1, and the given status
byte. -/
def createResult (status : Nat) : result :=
  { messageHeader := { ProtocolRevision := protocolRevision, MessageLength := 4 },
    elementHeader := { ID := moConfirmationID, ElementLength := 1 },
    confirmation := { Status := status } }

/-- The observable trace of one accepted connection in `NewService`:
the messages passed to the handler, and the confirmation records written
back to the device, each in order. -/
structure ConnTrace where
  handlerCalls : List InformationBucket
  writes : List result
  deriving DecidableEq, Repr

/-- The per-connection body spawned by `NewService`: `GetElements` decoding
is passed in as `decoded`; `res` starts as the negative confirmation; a
decode failure writes it and returns without invoking the handler; a
succeeding handler flips the status byte to 1; the confirmation is written
in every case. -/
def connectionHandle (decoded : Except GoError InformationBucket)
    (h : InformationBucket → Option GoError) : ConnTrace :=
  let res := createResult 0
  match decoded with
  | .error _ => { handlerCalls := [], writes := [res] }
  | .ok el =>
    match h el with
    | some _ => { handlerCalls := [el], writes := [res] }
    | none =>
      { handlerCalls := [el],
        writes := [{ res with confirmation := { Status := 1 } }] }

instance : Inhabited Target :=
  ⟨{ ID := "", IMEIPattern := "", Backend := "", SkipTLS := false, HeaderKV := [] }⟩

instance : Inhabited CompiledTarget :=
  ⟨{ toTarget := default, imeipattern := fun _ => false,
     client := { insecureSkipVerify := false } }⟩

/-- Boolean test that an oracle compilation succeeded. -/
def isOk {ε α : Type} : Except ε α → Bool
  | .ok _ => true
  | .error _ => false

/-- Executable prefix test used to build concrete pattern functions for the
witness inputs (a stand-in for the behaviour of a compiled anchored
regular expression such as a literal digit prefix). -/
def strHasPrefix (pre s : String) : Bool :=
  pre.data.isPrefixOf s.data

/-- Concrete target whose pattern matches identifiers starting with 300. -/
def tgtA : CompiledTarget :=
  { toTarget := { ID := "A", IMEIPattern := "300", Backend := "http://backend-a",
                  SkipTLS := false, HeaderKV := [] },
    imeipattern := strHasPrefix "300",
    client := { insecureSkipVerify := false } }

/-- Concrete target whose pattern matches identifiers starting with 999. -/
def tgtB : CompiledTarget :=
  { toTarget := { ID := "B", IMEIPattern := "999", Backend := "http://backend-b",
                  SkipTLS := false, HeaderKV := [] },
    imeipattern := strHasPrefix "999",
    client := { insecureSkipVerify := false } }

/-- Concrete target whose pattern matches identifiers starting with 30. -/
def tgtC : CompiledTarget :=
  { toTarget := { ID := "C", IMEIPattern := "30", Backend := "http://backend-c",
                  SkipTLS := false, HeaderKV := [] },
    imeipattern := strHasPrefix "30",
    client := { insecureSkipVerify := false } }

/-- Distributer holding only target A. -/
def distA : Distributer :=
  { targets := [tgtA], sbdChannelClosed := false, configChannelClosed := false }

/-- Distributer holding targets A then C (both match identifiers starting
with 300). -/
def distAC : Distributer :=
  { targets := [tgtA, tgtC], sbdChannelClosed := false, configChannelClosed := false }

/-- Distributer holding targets A then B (only A matches identifiers
starting with 300). -/
def distAB : Distributer :=
  { targets := [tgtA, tgtB], sbdChannelClosed := false, configChannelClosed := false }

/-- Concrete message with the device identifier of the spec example. -/
def msg300 : InformationBucket := { imei := "3004340635" }

/-- Network oracle on which every issued request yields HTTP status 200. -/
def netOK : Net := fun _ => .ok 200

/-- Network oracle on which every issued request yields HTTP status 500. -/
def net500 : Net := fun _ => .ok 500

/-- Compilation oracle for the witness inputs: the pattern 300 compiles to
the matching prefix test, the pattern `[` fails with the message given by
the regexp package, everything else compiles to a never-matching test. -/
def compileEx (pat : String) : Except String (String → Bool) :=
  if pat = "300" then .ok (fun s => strHasPrefix "300" s)
  else if pat = "[" then .error "error parsing regexp: missing closing ]"
  else .ok (fun _ => false)

/-- Candidate list of the spec test: one valid pattern, then one invalid
pattern. -/
def candsEx : List Target :=
  [ { ID := "A", IMEIPattern := "300", Backend := "http://backend-a",
      SkipTLS := false, HeaderKV := [] },
    { ID := "Bad", IMEIPattern := "[", Backend := "http://backend-bad",
      SkipTLS := true, HeaderKV := [] } ]

/-- Every run of the target loop of `handle` performs exactly one send on
the result channel, whatever the table, the oracle and the start index. -/
theorem handleLoop_sends_length (imei : String) (net : Net) :
    ∀ (ts : List CompiledTarget) (i : Nat),
      (handleLoop imei net ts i).sends.length = 1 := by
  intro ts
  induction ts with
  | nil => intro i; rfl
  | cons t ts ih =>
    intro i
    by_cases hm : t.matches imei = true
    · cases hn : net i with
      | newRequestErr e => simp [handleLoop, hm, hn]
      | transportErr e => simp [handleLoop, hm, hn]
      | ok s =>
        by_cases h2 : (s / 100 == 2) = true
        · simp [handleLoop, hm, hn, h2, ih]
        · simp [handleLoop, hm, hn, h2]
    · simp [handleLoop, hm, ih]

/-- C8: for every message submitted via Handle, exactly one value (the
terminal error or nil) is sent on the per-message result channel: every
execution path of the dispatch unit `handle` performs precisely one send
before terminating. -/
theorem handle_exactly_one_send (f : Distributer) (js : Except GoError String)
    (m : InformationBucket) (net : Net) :
    (handle f js m net).sends.length = 1 := by
  cases js with
  | error e => rfl
  | ok s => exact handleLoop_sends_length m.GetIMEI net f.targets 0

/-- C10: for every message whose JSON serialization fails, the dispatch
sends exactly that serialization error (so Handle returns it) and issues
no HTTP request to any target: the routing table is never consulted. -/
theorem handle_marshal_error_aborts (f : Distributer) (e : GoError)
    (m : InformationBucket) (net : Net) :
    handle f (.error e) m net = { requests := [], sends := [some e] } := rfl

/-- C1 divergence record: with one matching target whose backend answers
HTTP 500, the dispatch issues the request and then sends nil on the result
channel (the sent variable holds the nil error of the successful
`client.Do` call), so Handle returns nil although the target failed. -/
theorem handle_non2xx_sends_nil :
    handle distA (.ok "body") msg300 net500 =
      { requests := [0], sends := [none] } := rfl

/-- C9 counterexample: immediately after `Close`, the send performed by the
body of `Handle` on the now-closed `sbdChannel` panics under Go channel
semantics; it does not block waiting for a receiver, refuting the claim
that a Handle call issued after Close blocks indefinitely with no
failure. -/
theorem Handle_after_Close_not_blocking :
    distributeSubmit (Close New) = ChannelSendResult.panicked ∧
    ChannelSendResult.panicked ≠ ChannelSendResult.blocksForReceiver := by
  exact ⟨rfl, by decide⟩

/-- C9 amended: any Handle call issued after Close panics (a Go send on a
closed channel), for every distributer state. -/
theorem Handle_after_Close_panics (f : Distributer) :
    distributeSubmit (Close f) = ChannelSendResult.panicked := rfl

/-- C7: for every status byte, the confirmation encoder produces the fixed
header shape — the protocol revision byte and a declared message length of
exactly 4 covering the one confirmation element — with declared element
length 1 and the given status byte; the encoder is a total function. -/
theorem createResult_shape (status : Nat) :
    (createResult status).messageHeader.MessageLength = 4 ∧
    (createResult status).elementHeader.ElementLength = 1 ∧
    (createResult status).confirmation.Status = status ∧
    (createResult status).messageHeader.ProtocolRevision = protocolRevision ∧
    (createResult status).elementHeader.ID = moConfirmationID :=
  ⟨rfl, rfl, rfl, rfl, rfl⟩

/-- C5: for every accepted connection, exactly one confirmation write is
attempted; when decoding fails the handler is never invoked and the status
byte is 0; when decoding succeeds the handler is invoked once and the
status byte is 1 exactly when the handler returns nil, the reply carrying
nothing but the fixed confirmation record. -/
theorem connection_confirmation_once (d : Except GoError InformationBucket)
    (h : InformationBucket → Option GoError) :
    (connectionHandle d h).writes.length = 1 ∧
    (match d with
     | .error _ =>
        (connectionHandle d h).handlerCalls = [] ∧
        (connectionHandle d h).writes = [createResult 0]
     | .ok el =>
        (connectionHandle d h).handlerCalls = [el] ∧
        (connectionHandle d h).writes =
          [createResult (match h el with | none => 1 | some _ => 0)]) := by
  cases d with
  | error e => exact ⟨rfl, rfl, rfl⟩
  | ok el =>
    cases hh : h el with
    | none => simp [connectionHandle, hh, createResult]
    | some e2 => simp [connectionHandle, hh, createResult]

/-- Helper: when the pattern at position `i` is the first one that fails to
compile, `WithTargets` returns the ConfigError naming that pattern. -/
theorem WithTargets_error_of_bad_pattern
    (compile : String → Except String (String → Bool)) :
    ∀ (cands : List Target) (i : Nat) (c : String), i < cands.length →
      compile (cands.getD i default).IMEIPattern = Except.error c →
      (∀ j, j < i → isOk (compile (cands.getD j default).IMEIPattern) = true) →
      WithTargets compile cands =
        Except.error { pattern := (cands.getD i default).IMEIPattern, cause := c } := by
  intro cands
  induction cands with
  | nil => intro i c hi _ _; exact absurd hi (Nat.not_lt_zero i)
  | cons t ts ih =>
    intro i c hi herr hpre
    cases i with
    | zero =>
      simp only [List.getD_cons_zero] at herr ⊢
      simp [WithTargets, herr]
    | succ n =>
      have h0 : isOk (compile t.IMEIPattern) = true := by
        simpa using hpre 0 (Nat.succ_pos n)
      cases hc : compile t.IMEIPattern with
      | error e => rw [hc] at h0; simp [isOk] at h0
      | ok p =>
        have hrec := ih n c (Nat.lt_of_succ_lt_succ (by simpa using hi))
          (by simpa using herr)
          (fun j hj => by simpa using hpre (j + 1) (Nat.succ_lt_succ hj))
        simp only [List.getD_cons_succ]
        simp [WithTargets, hc, hrec]

/-- Helper: when every candidate pattern compiles, `WithTargets` builds the
whole table, preserving each candidate in order and pairing it with its
compiled pattern and a client built from its TLS toggle. -/
theorem WithTargets_ok_of_all_compile
    (compile : String → Except String (String → Bool)) :
    ∀ cands : List Target,
      (∀ j, j < cands.length →
        isOk (compile (cands.getD j default).IMEIPattern) = true) →
      ∃ ar, WithTargets compile cands = Except.ok ar ∧
        ar.length = cands.length ∧
        ∀ j, j < cands.length →
          (ar.getD j default).toTarget = cands.getD j default ∧
          compile ((cands.getD j default).IMEIPattern) =
            Except.ok ((ar.getD j default).imeipattern) ∧
          (ar.getD j default).client =
            { insecureSkipVerify := (cands.getD j default).SkipTLS } := by
  intro cands
  induction cands with
  | nil =>
    intro _
    exact ⟨[], rfl, rfl, fun j hj => absurd hj (Nat.not_lt_zero j)⟩
  | cons t ts ih =>
    intro hall
    have h0 : isOk (compile t.IMEIPattern) = true := by
      simpa using hall 0 (Nat.succ_pos _)
    cases hc : compile t.IMEIPattern with
    | error e => rw [hc] at h0; simp [isOk] at h0
    | ok p =>
      obtain ⟨ar, har, hlen, hfields⟩ :=
        ih (fun j hj => by simpa using hall (j + 1) (Nat.succ_lt_succ hj))
      refine ⟨{ toTarget := t, imeipattern := p,
                client := { insecureSkipVerify := t.SkipTLS } } :: ar, ?_, ?_, ?_⟩
      · simp [WithTargets, hc, har]
      · simpa using hlen
      · intro j hj
        cases j with
        | zero => exact ⟨rfl, by simpa using hc, rfl⟩
        | succ n =>
          simp only [List.getD_cons_succ]
          exact hfields n (Nat.lt_of_succ_lt_succ (by simpa using hj))

/-- C2: for every candidate list given to WithTargets, if the pattern at
some position is the first that fails to compile, the call returns the
ConfigError naming that pattern and the distributer state — in particular
the active routing table — is unchanged; if every pattern compiles, the
whole new table is installed as the `targets` field read by subsequent
Handle calls, each entry keeping its candidate fields, its compiled
pattern and its client built from the TLS toggle. -/
theorem WithTargets_whole_or_nothing
    (compile : String → Except String (String → Bool)) (f : Distributer)
    (cands : List Target) :
    (∀ i c, i < cands.length →
      compile (cands.getD i default).IMEIPattern = Except.error c →
      (∀ j, j < i → isOk (compile (cands.getD j default).IMEIPattern) = true) →
      WithTargetsState compile f cands =
        (f, some { pattern := (cands.getD i default).IMEIPattern, cause := c })) ∧
    ((∀ j, j < cands.length →
        isOk (compile (cands.getD j default).IMEIPattern) = true) →
      ∃ ar, WithTargets compile cands = Except.ok ar ∧
        WithTargetsState compile f cands = ({ f with targets := ar }, none) ∧
        ar.length = cands.length ∧
        ∀ j, j < cands.length →
          (ar.getD j default).toTarget = cands.getD j default ∧
          compile ((cands.getD j default).IMEIPattern) =
            Except.ok ((ar.getD j default).imeipattern) ∧
          (ar.getD j default).client =
            { insecureSkipVerify := (cands.getD j default).SkipTLS }) := by
  constructor
  · intro i c hi herr hpre
    have h := WithTargets_error_of_bad_pattern compile cands i c hi herr hpre
    simp [WithTargetsState, h]
  · intro hall
    obtain ⟨ar, har, hlen, hfields⟩ := WithTargets_ok_of_all_compile compile cands hall
    exact ⟨ar, har, by simp [WithTargetsState, har], hlen, hfields⟩

/-- Helper: if the target at offset `d` of the remaining table matches and
its call fails (transport error or non-2xx), while every earlier matching
offset succeeds with a 2xx response, then every request the loop issues
goes to an index at most `i0 + d`. -/
theorem handleLoop_abort (imei : String) (net : Net) :
    ∀ (ts : List CompiledTarget) (i0 d : Nat), d < ts.length →
      (ts.getD d default).matches imei = true →
      failsDispatch (net (i0 + d)) = true →
      (∀ j, j < d → (ts.getD j default).matches imei = true →
        succeeds2xx (net (i0 + j)) = true) →
      (handleLoop imei net ts i0).requests.all
        (fun k => decide (k ≤ i0 + d)) = true := by
  intro ts
  induction ts with
  | nil => intro i0 d hd _ _ _; exact absurd hd (Nat.not_lt_zero d)
  | cons t ts ih =>
    intro i0 d hd hm hf hpre
    cases d with
    | zero =>
      simp only [List.getD_cons_zero] at hm
      rw [Nat.add_zero] at hf
      cases hn : net i0 with
      | newRequestErr e => rw [hn] at hf; simp [failsDispatch] at hf
      | transportErr e => simp [handleLoop, hm, hn]
      | ok s =>
        rw [hn] at hf
        have h2 : (s / 100 == 2) = false := by
          simpa [failsDispatch] using hf
        simp [handleLoop, hm, hn, h2]
    | succ n =>
      have hd' : n < ts.length := Nat.lt_of_succ_lt_succ (by simpa using hd)
      have hm' : (ts.getD n default).matches imei = true := by simpa using hm
      have hf' : failsDispatch (net (i0 + 1 + n)) = true := by
        rw [show i0 + 1 + n = i0 + (n + 1) from by omega]; exact hf
      have hpre' : ∀ j, j < n → (ts.getD j default).matches imei = true →
          succeeds2xx (net (i0 + 1 + j)) = true := by
        intro j hj hjm
        rw [show i0 + 1 + j = i0 + (j + 1) from by omega]
        exact hpre (j + 1) (Nat.succ_lt_succ hj) (by simpa using hjm)
      have hrec := ih (i0 + 1) n hd' hm' hf' hpre'
      by_cases hm0 : t.matches imei = true
      · have hs := hpre 0 (Nat.succ_pos n) (by simpa using hm0)
        rw [Nat.add_zero] at hs
        cases hn : net i0 with
        | newRequestErr e => rw [hn] at hs; simp [succeeds2xx] at hs
        | transportErr e => rw [hn] at hs; simp [succeeds2xx] at hs
        | ok s =>
          rw [hn] at hs
          have h2 : (s / 100 == 2) = true := by simpa [succeeds2xx] using hs
          rw [show i0 + (n + 1) = i0 + 1 + n from by omega]
          simp only [handleLoop, hm0, hn, h2, if_true, List.all_cons,
            Bool.and_eq_true, decide_eq_true_eq]
          exact ⟨by omega, by simpa using hrec⟩
      · rw [show i0 + (n + 1) = i0 + 1 + n from by omega]
        simpa [handleLoop, hm0] using hrec

/-- C3: within one dispatch of a message, as soon as the matching target at
index `i` fails (transport-level error or non-2xx response) while every
earlier matching target succeeded, every issued HTTP request goes to an
index at most `i`: no later target in the routing table, matching or not,
receives a request. -/
theorem handle_abort_on_first_failure (f : Distributer)
    (js : Except GoError String) (m : InformationBucket) (net : Net) (i : Nat)
    (hi : i < f.targets.length)
    (hm : (f.targets.getD i default).matches m.GetIMEI = true)
    (hf : failsDispatch (net i) = true)
    (hpre : ∀ j, j < i → (f.targets.getD j default).matches m.GetIMEI = true →
      succeeds2xx (net j) = true) :
    (handle f js m net).requests.all (fun k => decide (k ≤ i)) = true := by
  cases js with
  | error e => rfl
  | ok s =>
    have h := handleLoop_abort m.GetIMEI net f.targets 0 i hi hm
      (by simpa using hf) (fun j hj hjm => by simpa using hpre j hj hjm)
    simpa using h

/-- C3 witness: two targets both matching the identifier 3004340635, the
first one answering HTTP 500: every issued request goes to index 0; target
at index 1 receives nothing. -/
theorem handle_abort_on_first_failure_witness :
    (handle distAC (.ok "body") msg300 net500).requests.all
      (fun k => decide (k ≤ 0)) = true :=
  handle_abort_on_first_failure distAC (.ok "body") msg300 net500 0
    (by decide) (by decide) (by decide) (by decide)

/-- Helper: when every matching target of the remaining table succeeds with
a 2xx response, the loop issues exactly one request per matching target,
in table order: the request list equals the matching-index list. -/
theorem handleLoop_all_ok (imei : String) (net : Net) :
    ∀ (ts : List CompiledTarget) (i0 : Nat),
      (∀ j, j < ts.length → (ts.getD j default).matches imei = true →
        succeeds2xx (net (i0 + j)) = true) →
      (handleLoop imei net ts i0).requests = matchingIdx imei ts i0 := by
  intro ts
  induction ts with
  | nil => intro i0 _; rfl
  | cons t ts ih =>
    intro i0 hall
    have hall' : ∀ j, j < ts.length → (ts.getD j default).matches imei = true →
        succeeds2xx (net (i0 + 1 + j)) = true := by
      intro j hj hjm
      rw [show i0 + 1 + j = i0 + (j + 1) from by omega]
      exact hall (j + 1) (Nat.succ_lt_succ hj) (by simpa using hjm)
    have hrec := ih (i0 + 1) hall'
    by_cases hm : t.matches imei = true
    · have hs := hall 0 (Nat.succ_pos _) (by simpa using hm)
      rw [Nat.add_zero] at hs
      cases hn : net i0 with
      | newRequestErr e => rw [hn] at hs; simp [succeeds2xx] at hs
      | transportErr e => rw [hn] at hs; simp [succeeds2xx] at hs
      | ok s =>
        rw [hn] at hs
        have h2 : (s / 100 == 2) = true := by simpa [succeeds2xx] using hs
        simp [handleLoop, matchingIdx, hm, hn, h2, hrec]
    · simp [handleLoop, matchingIdx, hm, hrec]

/-- Helper: every index the matching-index list yields is at least the
start index. -/
theorem matchingIdx_lb (imei : String) :
    ∀ (ts : List CompiledTarget) (i0 k : Nat),
      k ∈ matchingIdx imei ts i0 → i0 ≤ k := by
  intro ts
  induction ts with
  | nil => intro i0 k hk; simp [matchingIdx] at hk
  | cons t ts ih =>
    intro i0 k hk
    by_cases hm : t.matches imei = true
    · simp [matchingIdx, hm] at hk
      rcases hk with h | h
      · omega
      · exact Nat.le_of_succ_le (ih (i0 + 1) k h)
    · simp [matchingIdx, hm] at hk
      exact Nat.le_of_succ_le (ih (i0 + 1) k hk)

/-- Helper: the matching-index list is strictly increasing. -/
theorem matchingIdx_pairwise (imei : String) :
    ∀ (ts : List CompiledTarget) (i0 : Nat),
      (matchingIdx imei ts i0).Pairwise (fun a b => a < b) := by
  intro ts
  induction ts with
  | nil => intro i0; simp [matchingIdx]
  | cons t ts ih =>
    intro i0
    by_cases hm : t.matches imei = true
    · simp only [matchingIdx, hm, if_true]
      refine List.Pairwise.cons ?_ (ih (i0 + 1))
      intro k hk
      exact Nat.lt_of_succ_le (matchingIdx_lb imei ts (i0 + 1) k hk)
    · simp only [matchingIdx, hm, if_false]
      exact ih (i0 + 1)

/-- C4: for a dispatched message (serialization succeeded) on which every
matching target responds in the 2xx class, the issued requests are exactly
the indices of the targets whose pattern matches the device identifier, in
strictly increasing routing-table order — one request per matching target
and none to a non-matching target. -/
theorem handle_requests_eq_matching (f : Distributer) (s : String)
    (m : InformationBucket) (net : Net)
    (hall : ∀ j, j < f.targets.length →
      (f.targets.getD j default).matches m.GetIMEI = true →
      succeeds2xx (net j) = true) :
    (handle f (.ok s) m net).requests = matchingIdx m.GetIMEI f.targets 0 ∧
    (handle f (.ok s) m net).requests.Pairwise (fun a b => a < b) := by
  have h := handleLoop_all_ok m.GetIMEI net f.targets 0
    (fun j hj hjm => by simpa using hall j hj hjm)
  refine ⟨h, ?_⟩
  have hh : (handle f (.ok s) m net).requests = matchingIdx m.GetIMEI f.targets 0 := h
  rw [hh]
  exact matchingIdx_pairwise m.GetIMEI f.targets 0

/-- C4 witness: the spec example — target A matching identifiers starting
with 300, target B matching identifiers starting with 999, the message
identifier 3004340635, every response 200 — issues exactly one request,
to index 0. -/
theorem handle_requests_eq_matching_witness :
    (handle distAB (.ok "body") msg300 netOK).requests = [0] := by
  have h := handle_requests_eq_matching distAB "body" msg300 netOK (by decide)
  rw [h.1]
  rfl
